import Mathlib

/-!
Verification of the Active-Monitor Resolution & Adaptive Polling subsystem
of the alt-tab overlay, shallowly embedded from the Rust sources
`src/monitor/state.rs`, `src/monitor/poller.rs` and `src/monitor/tracker.rs`.

Modelling conventions:
* `gpui::Bounds<Pixels>` rectangles are embedded with exact integer
  coordinates (the geometry claims are about the algorithm, not f32 rounding).
* `std::time::Instant` is a monotone clock, embedded as `Nat`.
* `std::time::Duration` is embedded as its total nanosecond count, a `Nat`
  bounded by `durationMax` (`u64::MAX` seconds plus `999_999_999` ns);
  Rust `Duration / u32` is exact floor division on that count and
  `Duration * u32` is checked (panics on overflow, embedded as `none`),
  while `saturating_mul` caps at `durationMax`.
-/

namespace AltTab

/-- Axis-aligned rectangle: origin `x`,`y` and size `w`,`h`
(embeds `gpui::Bounds<Pixels>` from the source's coordinate space). -/
structure Bounds where
  x : Int
  y : Int
  w : Int
  h : Int
  deriving DecidableEq, Repr

/-- `ActiveMonitor` from `src/monitor/state.rs`: a resolved monitor rectangle. -/
structure ActiveMonitor where
  bounds : Bounds
  deriving DecidableEq, Repr

/-- `ActiveMonitor::new` from `src/monitor/state.rs`. -/
def ActiveMonitor.new (bounds : Bounds) : ActiveMonitor := ⟨bounds⟩

/-- `Stamped` from `src/monitor/state.rs`: a monitor plus the `Instant`
(`at'` here, since `at` is reserved) at which the signal was observed. -/
structure Stamped where
  monitor : ActiveMonitor
  at' : Nat
  deriving DecidableEq, Repr

/-- `InputState` from `src/monitor/state.rs`: last-known stamped monitor for
each of the two signals. -/
structure InputState where
  focus : Option Stamped := none
  cursor : Option Stamped := none
  deriving DecidableEq, Repr

/-- `InputState::update_cursor` from `src/monitor/state.rs` lines 38-53:
no-op unless `committed`; no-op (timestamp kept) when the stored cursor
monitor already equals `monitor`; otherwise stores `(monitor, at)`. -/
def InputState.update_cursor (s : InputState) (monitor : Bounds) (t : Nat)
    (committed : Bool) : InputState :=
  if !committed then s
  else
    let same : Bool :=
      match s.cursor with
      | some c => decide (c.monitor.bounds = monitor)
      | none => false
    if same then s
    else { s with cursor := some { monitor := ActiveMonitor.new monitor, at' := t } }

/-- `InputState::update_focus` from `src/monitor/state.rs` lines 55-64: takes a
plain (non-optional) monitor rectangle; no-op when the stored focus monitor
already equals it, otherwise stores `(monitor, at)`.  Note the callers in
`src/monitor/tracker.rs` pass an `Option<Bounds<Pixels>>` here instead. -/
def InputState.update_focus (s : InputState) (monitor : Bounds) (t : Nat) :
    InputState :=
  let same : Bool :=
    match s.focus with
    | some f => decide (f.monitor.bounds = monitor)
    | none => false
  if same then s
  else { s with focus := some { monitor := ActiveMonitor.new monitor, at' := t } }

/-- `monitor_for_point` from `src/monitor/state.rs` lines 67-80: first monitor
containing the point under half-open bounds. -/
def monitor_for_point (monitors : List Bounds) (x y : Int) : Option Bounds :=
  monitors.find? fun m =>
    decide (m.x ≤ x) && decide (x < m.x + m.w) &&
    decide (m.y ≤ y) && decide (y < m.y + m.h)

/-- `pick_active_monitor` from `src/monitor/state.rs` lines 82-95: recency-wins
fusion of the two signals, cursor winning ties, fallback when neither present. -/
def pick_active_monitor (state : InputState) (fallback : Bounds) : ActiveMonitor :=
  match state.cursor, state.focus with
  | some cursor, some focus =>
      if cursor.at' ≥ focus.at' then cursor.monitor else focus.monitor
  | some cursor, none => cursor.monitor
  | none, some focus => focus.monitor
  | none, none => ActiveMonitor.new fallback

/-- `intersection_area` from `src/monitor/state.rs` lines 115-121, with
`gpui`'s `Bounds::intersect` (componentwise max of origins, min of
lower-right corners) inlined: zero when either side of the intersection is
nonpositive, else width times height. -/
def intersection_area (a b : Bounds) : Int :=
  let ox := max a.x b.x
  let oy := max a.y b.y
  let rx := min (a.x + a.w) (b.x + b.w)
  let ry := min (a.y + a.h) (b.y + b.h)
  if rx - ox ≤ 0 ∨ ry - oy ≤ 0 then 0 else (rx - ox) * (ry - oy)

/-- One step of Rust's `Iterator::max_by`: keep the accumulator only when its
key is strictly greater, so ties keep the later element. -/
def maxStep (a y : Bounds × Int) : Bounds × Int := if a.2 > y.2 then a else y

/-- Rust's `Iterator::max_by` over the candidate list: `none` on an empty
list, else the fold of `maxStep` (last maximal element wins ties). -/
def maxByArea : List (Bounds × Int) → Option (Bounds × Int)
  | [] => none
  | x :: xs => some (xs.foldl maxStep x)

/-- `monitor_for_bounds` from `src/monitor/state.rs` lines 97-113: keep the
monitors whose intersection area with `window` is strictly positive, paired
with that area, and take the maximum by area. -/
def monitor_for_bounds (monitors : List Bounds) (window : Bounds) : Option Bounds :=
  (maxByArea (monitors.filterMap fun m =>
    let area := intersection_area window m
    if area > 0 then some (m, area) else none)).map Prod.fst

/-- `Duration::MAX` in nanoseconds: `u64::MAX` seconds plus `999_999_999` ns. -/
def durationMax : Nat := 18446744073709551615 * 1000000000 + 999999999

/-- `i32::MAX`. -/
def i32Max : Int := 2147483647

/-- `i32::MIN`. -/
def i32Min : Int := -2147483648

/-- Rust's `Ord::clamp` on durations (the callers always pass `lo ≤ hi`;
Rust asserts this). -/
def durClamp (x lo hi : Nat) : Nat :=
  if x < lo then lo else if x > hi then hi else x

/-- `BasicStrategy::next_interval` from `src/monitor/poller.rs` lines 15-30:
halve on change, saturating-double on idle, clamp to `[mn, mx]`. -/
def BasicStrategy.next_interval (current : Nat) (changed : Bool) (mn mx : Nat) :
    Nat :=
  let next := if changed then current / 2 else min (current * 2) durationMax
  durClamp next mn mx

/-- The streak update performed at the top of `MomentumStrategy::next_interval`
(`src/monitor/poller.rs` lines 50-62): a direction reversal resets to `±1`,
otherwise the streak saturating-increments away from zero (`i32` saturation). -/
def momentumStep (streak : Int) (changed : Bool) : Int :=
  if changed then
    if streak < 0 then 1 else min (streak + 1) i32Max
  else
    if streak > 0 then -1 else max (streak - 1) i32Min

/-- `MomentumStrategy::next_interval` from `src/monitor/poller.rs` lines 42-77.
The strategy state is the `streak` field; the result is the updated streak
plus the interval, where the interval is `none` exactly when the ramp-up
multiplication `current * (|streak|+1)` overflows `Duration` (Rust's
`Duration: Mul<u32>` is checked and panics there). -/
def MomentumStrategy.next_interval (streak : Int) (current : Nat) (changed : Bool)
    (mn mx : Nat) : Option Nat × Int :=
  let s := momentumStep streak changed
  let abs := max s.natAbs 1
  let next : Option Nat :=
    if changed then some (current / min 8 (max 2 abs))
    else if current * (abs + 1) > durationMax then none
    else some (current * (abs + 1) / abs)
  (next.map fun n => durClamp n mn mx, s)

/-- Run `MomentumStrategy::next_interval` over a list of `(current, changed)`
calls, threading only the strategy's streak state (as the repository's own
tests do when warming a strategy up). -/
def momentumRunStreak (streak : Int) (ticks : List (Nat × Bool)) (mn mx : Nat) :
    Int :=
  ticks.foldl (fun s t => (MomentumStrategy.next_interval s t.1 t.2 mn mx).2) streak

/-- The data `MonitorTracker::snapshot` (`src/monitor/tracker.rs` lines
170-207) reads: the shared `InputState`, the shared monitor list, the
process-wide visibility flag, and the platform's fresh
`cursor_position()` reading (`none` when unavailable). -/
structure MonitorTracker where
  state : InputState
  monitors : List Bounds
  anyVisible : Bool
  cursorPos : Option (Int × Int)
  deriving DecidableEq, Repr

/-- `MonitorTracker::snapshot` from `src/monitor/tracker.rs` lines 170-207.
Returns the selected monitor together with the shared `InputState` as it
stands after the call: the source clones the state under the lock
(line 180) and applies the fresh cursor reading and the visibility-flag
focus clearing only to that local clone, so the shared state is returned
untouched in every branch. -/
def MonitorTracker.snapshot (t : MonitorTracker) (now : Nat) :
    Option ActiveMonitor × InputState :=
  match t.monitors with
  | [] => (none, t.state)
  | m :: rest =>
    if rest.isEmpty then (some (ActiveMonitor.new m), t.state)
    else
      let local0 := t.state
      let local1 :=
        match t.cursorPos with
        | some (x, y) =>
          match monitor_for_point t.monitors x y with
          | some monitor => local0.update_cursor monitor now true
          | none => local0
        | none => local0
      let local2 := if t.anyVisible then { local1 with focus := none } else local1
      (some (pick_active_monitor local2 m), t.state)

/-! ## Helper lemmas -/

theorem durClamp_mem (x lo hi : Nat) (h : lo ≤ hi) :
    lo ≤ durClamp x lo hi ∧ durClamp x lo hi ≤ hi := by
  unfold durClamp
  split_ifs <;> omega

theorem momentumStep_true_def (s : Int) :
    momentumStep s true = if s < 0 then 1 else min (s + 1) i32Max := by
  simp [momentumStep]

theorem momentumStep_false_def (s : Int) :
    momentumStep s false = if s > 0 then -1 else max (s - 1) i32Min := by
  simp [momentumStep]

theorem momentumStep_pos (s : Int) : 1 ≤ momentumStep s true := by
  rw [momentumStep_true_def]
  split_ifs with h
  · omega
  · exact le_min (by omega) (by unfold i32Max; omega)

theorem momentumStep_neg (s : Int) : momentumStep s false ≤ -1 := by
  rw [momentumStep_false_def]
  split_ifs with h
  · omega
  · exact max_le (by omega) (by unfold i32Min; omega)

theorem momentum_streak_eq (streak : Int) (current : Nat) (changed : Bool)
    (mn mx : Nat) :
    (MomentumStrategy.next_interval streak current changed mn mx).2 =
      momentumStep streak changed := rfl

theorem momentum_congr {s s' : Int} (current : Nat) (changed : Bool) (mn mx : Nat)
    (h : momentumStep s changed = momentumStep s' changed) :
    MomentumStrategy.next_interval s current changed mn mx =
      MomentumStrategy.next_interval s' current changed mn mx := by
  unfold MomentumStrategy.next_interval
  rw [h]

theorem momentumRunStreak_cons (s : Int) (t : Nat × Bool) (ts : List (Nat × Bool))
    (mn mx : Nat) :
    momentumRunStreak s (t :: ts) mn mx =
      momentumRunStreak ((MomentumStrategy.next_interval s t.1 t.2 mn mx).2) ts mn mx := rfl

theorem basic_true_def (c mn mx : Nat) :
    BasicStrategy.next_interval c true mn mx = durClamp (c / 2) mn mx := by
  simp [BasicStrategy.next_interval]

theorem basic_false_def (c mn mx : Nat) :
    BasicStrategy.next_interval c false mn mx
      = durClamp (min (c * 2) durationMax) mn mx := by
  simp [BasicStrategy.next_interval]

theorem momentum_true_fst (streak : Int) (current mn mx : Nat) :
    (MomentumStrategy.next_interval streak current true mn mx).1 =
      some (durClamp
        (current / min 8 (max 2 (max (momentumStep streak true).natAbs 1))) mn mx) := by
  simp [MomentumStrategy.next_interval]

theorem momentum_false_fst (streak : Int) (current mn mx : Nat) :
    (MomentumStrategy.next_interval streak current false mn mx).1 =
      if current * (max (momentumStep streak false).natAbs 1 + 1) > durationMax then none
      else some (durClamp
        (current * (max (momentumStep streak false).natAbs 1 + 1)
          / max (momentumStep streak false).natAbs 1) mn mx) := by
  simp [MomentumStrategy.next_interval, apply_ite (Option.map fun n => durClamp n mn mx)]

theorem momentumRunStreak_idle_neg (warm : List (Nat × Bool)) (mn mx : Nat) :
    ∀ s : Int, warm ≠ [] → (∀ t ∈ warm, t.2 = false) →
      momentumRunStreak s warm mn mx ≤ -1 := by
  induction warm with
  | nil => intro s h _; exact absurd rfl h
  | cons t ts ih =>
    intro s _ hidle
    have ht : t.2 = false := hidle t (List.mem_cons_self t ts)
    have hstep : (MomentumStrategy.next_interval s t.1 t.2 mn mx).2 ≤ -1 := by
      rw [momentum_streak_eq, ht]; exact momentumStep_neg s
    rw [momentumRunStreak_cons]
    by_cases hts : ts = []
    · subst hts; exact hstep
    · exact ih _ hts fun x hx => hidle x (List.mem_cons_of_mem t hx)

theorem maxStep_fst_le (x y : Bounds × Int) : x.2 ≤ (maxStep x y).2 := by
  unfold maxStep; split_ifs <;> omega

theorem maxStep_snd_le (x y : Bounds × Int) : y.2 ≤ (maxStep x y).2 := by
  unfold maxStep; split_ifs <;> omega

theorem maxStep_cases (x y : Bounds × Int) : maxStep x y = x ∨ maxStep x y = y := by
  unfold maxStep; split_ifs <;> simp

theorem foldl_maxStep_spec (xs : List (Bounds × Int)) :
    ∀ x : Bounds × Int, xs.foldl maxStep x ∈ x :: xs
      ∧ x.2 ≤ (xs.foldl maxStep x).2
      ∧ ∀ y ∈ xs, y.2 ≤ (xs.foldl maxStep x).2 := by
  induction xs with
  | nil =>
    intro x
    exact ⟨List.mem_cons_self x [], le_refl _, by simp⟩
  | cons y ys ih =>
    intro x
    obtain ⟨m1, m2, m3⟩ := ih (maxStep x y)
    refine ⟨?_, ?_, ?_⟩
    · rw [List.foldl_cons]
      rcases List.mem_cons.mp m1 with h | h
      · rcases maxStep_cases x y with he | he <;> rw [h, he] <;> simp
      · simp [List.mem_cons, h]
    · rw [List.foldl_cons]
      exact le_trans (maxStep_fst_le x y) m2
    · intro z hz
      rw [List.foldl_cons]
      rcases List.mem_cons.mp hz with h | h
      · subst h; exact le_trans (maxStep_snd_le x z) m2
      · exact m3 z h

theorem maxByArea_none_iff (l : List (Bounds × Int)) : maxByArea l = none ↔ l = [] := by
  cases l <;> simp [maxByArea]

theorem maxByArea_some_spec (l : List (Bounds × Int)) (p : Bounds × Int)
    (h : maxByArea l = some p) : p ∈ l ∧ ∀ q ∈ l, q.2 ≤ p.2 := by
  cases l with
  | nil => simp [maxByArea] at h
  | cons x xs =>
    rw [show maxByArea (x :: xs) = some (xs.foldl maxStep x) from rfl,
      Option.some_inj] at h
    obtain ⟨m1, m2, m3⟩ := foldl_maxStep_spec xs x
    subst h
    refine ⟨m1, fun q hq => ?_⟩
    rcases List.mem_cons.mp hq with h | h
    · subst h; exact m2
    · exact m3 q h

theorem snapshot_state_eq (t : MonitorTracker) (now : Nat) :
    (t.snapshot now).2 = t.state := by
  obtain ⟨st, mons, vis, cp⟩ := t
  cases mons with
  | nil => rfl
  | cons m rest =>
    cases rest with
    | nil => rfl
    | cons m2 r2 => rfl

/-! ## The claims -/

/-- C1: for every `InputState` and fallback monitor, `pick_active_monitor`
returns the monitor of the signal with the more recent timestamp when both
cursor and focus are present, the cursor winning an exact tie
(`cursor.at >= focus.at`); the single present signal's monitor when only one
is present; and the fallback when neither is present. -/
theorem C1_pick_active_monitor_recency (s : InputState) (fb : Bounds) :
    (∀ c f, s.cursor = some c → s.focus = some f → f.at' ≤ c.at' →
      pick_active_monitor s fb = c.monitor)
    ∧ (∀ c f, s.cursor = some c → s.focus = some f → c.at' < f.at' →
      pick_active_monitor s fb = f.monitor)
    ∧ (∀ c, s.cursor = some c → s.focus = none → pick_active_monitor s fb = c.monitor)
    ∧ (∀ f, s.cursor = none → s.focus = some f → pick_active_monitor s fb = f.monitor)
    ∧ (s.cursor = none → s.focus = none →
      pick_active_monitor s fb = ActiveMonitor.new fb) := by
  refine ⟨?_, ?_, ?_, ?_, ?_⟩
  · intro c f hc hf hle
    simp [pick_active_monitor, hc, hf, ge_iff_le, hle]
  · intro c f hc hf hlt
    have hn : ¬ c.at' ≥ f.at' := by omega
    simp [pick_active_monitor, hc, hf, hn]
  · intro c hc hf
    simp [pick_active_monitor, hc, hf]
  · intro f hc hf
    simp [pick_active_monitor, hc, hf]
  · intro hc hf
    simp [pick_active_monitor, hc, hf]

/-- C1 witness: a cursor stamped at 5 beats a focus stamped at 3. -/
theorem C1_pick_active_monitor_recency_witness :
    pick_active_monitor
      { focus := some { monitor := ⟨⟨10, 0, 10, 10⟩⟩, at' := 3 },
        cursor := some { monitor := ⟨⟨0, 0, 10, 10⟩⟩, at' := 5 } } ⟨0, 0, 1, 1⟩
      = ⟨⟨0, 0, 10, 10⟩⟩ :=
  (C1_pick_active_monitor_recency _ _).1 _ _ rfl rfl (by decide)

/-- C2 counterexample: the claim fails as stated for `MomentumStrategy`. With
`min = max = Duration::MAX` and `current = Duration::MAX` (a valid input:
`min ≤ max`, `current ∈ [min, max]`) and `changed = false`, the fresh
strategy's ramp-up computes `current * 2`, which overflows `Duration`, so the
Rust code panics in `Duration`'s checked `Mul` instead of returning an
interval in `[min, max]` (embedded as `none`). `BasicStrategy` is immune: it
uses `saturating_mul`. -/
theorem C2_momentum_overflow_counterexample :
    (MomentumStrategy.next_interval 0 durationMax false durationMax durationMax).1
      = none := by
  decide

/-- C2 amended: for every `min ≤ max` and every `current` and prior streak,
`BasicStrategy.next_interval` returns a duration within `[min, max]`, and
`MomentumStrategy.next_interval` does too whenever it returns at all (i.e.
whenever the ramp-up multiplication `current * (|streak|+1)` does not
overflow `Duration` and panic). -/
theorem C2_next_interval_in_bounds (streak : Int) (current : Nat) (changed : Bool)
    (mn mx : Nat) (h : mn ≤ mx) :
    (mn ≤ BasicStrategy.next_interval current changed mn mx
      ∧ BasicStrategy.next_interval current changed mn mx ≤ mx)
    ∧ ∀ v, (MomentumStrategy.next_interval streak current changed mn mx).1 = some v →
        mn ≤ v ∧ v ≤ mx := by
  constructor
  · cases changed
    · rw [basic_false_def]; exact durClamp_mem _ _ _ h
    · rw [basic_true_def]; exact durClamp_mem _ _ _ h
  · intro v hv
    cases changed
    · rw [momentum_false_fst] at hv
      split at hv
      · exact absurd hv (by simp)
      · rw [Option.some_inj] at hv
        subst hv
        exact durClamp_mem _ _ _ h
    · rw [momentum_true_fst, Option.some_inj] at hv
      subst hv
      exact durClamp_mem _ _ _ h

/-- C2 witness: at `streak = 0`, `current = 250ms`, `changed = true`,
`min = 16ms`, `max = 500ms` (in ns) both strategies stay in bounds;
momentum returns `125ms`. -/
theorem C2_next_interval_in_bounds_witness :
    (16000000 ≤ BasicStrategy.next_interval 250000000 true 16000000 500000000
      ∧ BasicStrategy.next_interval 250000000 true 16000000 500000000 ≤ 500000000)
    ∧ (16000000 ≤ 125000000 ∧ 125000000 ≤ 500000000) :=
  ⟨(C2_next_interval_in_bounds 0 250000000 true 16000000 500000000 (by decide)).1,
   (C2_next_interval_in_bounds 0 250000000 true 16000000 500000000 (by decide)).2
      125000000 (by decide)⟩

/-- C3 counterexample: after a run of ten idle (`changed = false`) calls at
500ms with bounds 16ms..500ms, the next `changed = true` call returns
exactly the same interval (250ms) as a fresh strategy's first
`changed = true` call — not a strictly smaller one, because the direction
reversal resets the streak to 1 in both cases. -/
theorem C3_idle_streak_rampdown_counterexample :
    (MomentumStrategy.next_interval
        (momentumRunStreak 0 (List.replicate 10 (500000000, false)) 16000000 500000000)
        500000000 true 16000000 500000000).1
      = (MomentumStrategy.next_interval 0 500000000 true 16000000 500000000).1
    ∧ (MomentumStrategy.next_interval 0 500000000 true 16000000 500000000).1
      = some 250000000 := by
  decide

/-- C3 amended: after any nonempty run of idle (`changed = false`) calls, a
`MomentumStrategy`'s next `changed = true` call returns an interval no larger
than — in fact equal to — a fresh strategy's first `changed = true` call on
the same current interval: both reset the streak to 1 and divide by
`clamp(1, 2, 8) = 2`. -/
theorem C3_idle_streak_rampdown_no_larger (warm : List (Nat × Bool)) (mn mx c : Nat)
    (hne : warm ≠ []) (hidle : ∀ t ∈ warm, t.2 = false) :
    (MomentumStrategy.next_interval (momentumRunStreak 0 warm mn mx) c true mn mx).1
      = (MomentumStrategy.next_interval 0 c true mn mx).1 := by
  have hneg : momentumRunStreak 0 warm mn mx ≤ -1 :=
    momentumRunStreak_idle_neg warm mn mx 0 hne hidle
  have hstep : momentumStep (momentumRunStreak 0 warm mn mx) true
      = momentumStep 0 true := by
    rw [momentumStep_true_def, momentumStep_true_def]
    rw [if_pos (by omega : momentumRunStreak 0 warm mn mx < 0),
      if_neg (by omega : ¬ (0 : Int) < 0)]
    decide
  rw [momentum_congr c true mn mx hstep]

/-- C3 witness: one idle call at 500ms, then a `changed = true` call at
250ms, gives the same interval as a fresh strategy at 250ms. -/
theorem C3_idle_streak_rampdown_no_larger_witness :
    (MomentumStrategy.next_interval
        (momentumRunStreak 0 [(500000000, false)] 16000000 500000000)
        250000000 true 16000000 500000000).1
      = (MomentumStrategy.next_interval 0 250000000 true 16000000 500000000).1 :=
  C3_idle_streak_rampdown_no_larger [(500000000, false)] 16000000 500000000 250000000
    (by decide) (by decide)

/-- C4: `update_cursor` leaves the state completely unchanged when
`committed` is false; when `committed` is true and the monitor equals the
currently stored cursor monitor it is a no-op preserving the stored
timestamp; otherwise (different monitor, or no cursor stored yet) it
replaces the cursor field with `(monitor, at)`. -/
theorem C4_update_cursor_transitions (s : InputState) (m : Bounds) (t : Nat) :
    s.update_cursor m t false = s
    ∧ (∀ c, s.cursor = some c → c.monitor.bounds = m → s.update_cursor m t true = s)
    ∧ (∀ c, s.cursor = some c → c.monitor.bounds ≠ m →
        s.update_cursor m t true =
          { s with cursor := some { monitor := ActiveMonitor.new m, at' := t } })
    ∧ (s.cursor = none → s.update_cursor m t true =
        { s with cursor := some { monitor := ActiveMonitor.new m, at' := t } }) := by
  refine ⟨?_, ?_, ?_, ?_⟩
  · simp [InputState.update_cursor]
  · intro c hc hm
    simp [InputState.update_cursor, hc, hm]
  · intro c hc hm
    simp [InputState.update_cursor, hc, hm]
  · intro hc
    simp [InputState.update_cursor, hc]

/-- C4 witness: a committed update with the already-stored monitor is a
no-op (the timestamp stays 5, not 9). -/
theorem C4_update_cursor_transitions_witness :
    InputState.update_cursor
      { focus := none, cursor := some { monitor := ⟨⟨0, 0, 10, 10⟩⟩, at' := 5 } }
      ⟨0, 0, 10, 10⟩ 9 true
      = { focus := none, cursor := some { monitor := ⟨⟨0, 0, 10, 10⟩⟩, at' := 5 } } :=
  (C4_update_cursor_transitions _ _ 9).2.1 _ rfl rfl

/-- C5: the claim describes `update_focus` as taking an `Option` monitor with
`None` a valid stored value. The `InputState::update_focus` actually defined
in `src/monitor/state.rs` (lines 55-64) takes a plain, non-optional monitor
rectangle and always stores `Some`: this theorem shows the focus field is
`Some` after every call, so no explicit "no focus" value can ever be stored
through it. Its callers in `src/monitor/tracker.rs` (`poll_tick` line 302,
`force_focus_update` line 221, and the tracker tests) instead pass an
`Option<Bounds<Pixels>>`, which that signature cannot accept — the two files
contradict each other, and the claim matches the callers, not the
definition. -/
theorem C5_update_focus_always_stores_some (s : InputState) (m : Bounds) (t : Nat) :
    ((s.update_focus m t).focus).isSome = true := by
  cases hf : s.focus with
  | none => simp [InputState.update_focus, hf]
  | some f =>
    by_cases hm : f.monitor.bounds = m <;> simp [InputState.update_focus, hf, hm]

/-- C6: `monitor_for_bounds` returns a monitor from the list whose
intersection area with the window is strictly positive and maximal among all
monitors, and returns `None` exactly when no monitor has a positive-area
intersection. -/
theorem C6_monitor_for_bounds_max_overlap (monitors : List Bounds) (window : Bounds) :
    (∀ r, monitor_for_bounds monitors window = some r →
      r ∈ monitors ∧ 0 < intersection_area window r ∧
      ∀ m ∈ monitors, intersection_area window m ≤ intersection_area window r)
    ∧ (monitor_for_bounds monitors window = none ↔
      ∀ m ∈ monitors, intersection_area window m ≤ 0) := by
  constructor
  · intro r hr
    unfold monitor_for_bounds at hr
    rw [Option.map_eq_some'] at hr
    obtain ⟨p, hp, hpr⟩ := hr
    obtain ⟨hmem, hmax⟩ := maxByArea_some_spec _ p hp
    rw [List.mem_filterMap] at hmem
    obtain ⟨m, hm, hfm⟩ := hmem
    by_cases hpos : intersection_area window m > 0
    · simp only [hpos, if_pos] at hfm
      have hpm : p = (m, intersection_area window m) := by simpa using hfm.symm
      have hp1 : p.1 = m := by rw [hpm]
      have hp2 : p.2 = intersection_area window m := by rw [hpm]
      have hrm : r = m := by rw [← hpr, hp1]
      subst hrm
      refine ⟨hm, hpos, ?_⟩
      intro m2 hm2
      by_cases hpos2 : intersection_area window m2 > 0
      · have hin : (m2, intersection_area window m2) ∈
            monitors.filterMap (fun m3 =>
              let area := intersection_area window m3
              if area > 0 then some (m3, area) else none) := by
          rw [List.mem_filterMap]
          exact ⟨m2, hm2, by simp [hpos2]⟩
        have hle := hmax _ hin
        rw [hp2] at hle
        exact hle
      · omega
    · simp [hpos] at hfm
  · unfold monitor_for_bounds
    rw [Option.map_eq_none', maxByArea_none_iff, List.filterMap_eq_nil_iff]
    refine ⟨fun h m hm => ?_, fun h m hm => ?_⟩
    · have := h m hm
      by_cases hpos : intersection_area window m > 0
      · simp [hpos] at this
      · omega
    · have h1 : intersection_area window m ≤ 0 := h m hm
      simp [show ¬ intersection_area window m > 0 by omega]

/-- C6 witness: of the monitors `(0,0,1920,1080)` and `(1920,0,2560,1440)`,
the window `(1000,100,1000,800)` overlaps the first by 736000 and the second
by 64000, so `monitor_for_bounds` picks the first — the larger overlap, not
merely an overlapping one. -/
theorem C6_monitor_for_bounds_max_overlap_witness :
    (⟨0, 0, 1920, 1080⟩ : Bounds)
        ∈ [(⟨0, 0, 1920, 1080⟩ : Bounds), ⟨1920, 0, 2560, 1440⟩]
    ∧ 0 < intersection_area ⟨1000, 100, 1000, 800⟩ ⟨0, 0, 1920, 1080⟩
    ∧ ∀ m ∈ [(⟨0, 0, 1920, 1080⟩ : Bounds), ⟨1920, 0, 2560, 1440⟩],
        intersection_area ⟨1000, 100, 1000, 800⟩ m
          ≤ intersection_area ⟨1000, 100, 1000, 800⟩ ⟨0, 0, 1920, 1080⟩ :=
  (C6_monitor_for_bounds_max_overlap [⟨0, 0, 1920, 1080⟩, ⟨1920, 0, 2560, 1440⟩]
    ⟨1000, 100, 1000, 800⟩).1 ⟨0, 0, 1920, 1080⟩ (by decide)

/-- C7: `snapshot()` returns `none` whenever the tracker's monitor list is
empty; with exactly one monitor it returns that monitor for every input
state, every cursor reading and every visibility flag — i.e. without
consulting the cursor or focus signals or applying any fusion logic. -/
theorem C7_snapshot_empty_and_single_monitor (st : InputState) (vis : Bool)
    (cp : Option (Int × Int)) (now : Nat) (m : Bounds) :
    (MonitorTracker.snapshot ⟨st, [], vis, cp⟩ now).1 = none
    ∧ (MonitorTracker.snapshot ⟨st, [m], vis, cp⟩ now).1 = some (ActiveMonitor.new m) :=
  ⟨rfl, rfl⟩

/-- C8: for in-bounds inputs, `BasicStrategy.next_interval` is exactly
`current / 2` clamped below at `min` when `changed` is true, and exactly
`current * 2` clamped above at `max` when `changed` is false (the bound
`max ≤ Duration::MAX` holds for every Rust `Duration` by construction). -/
theorem C8_basic_strategy_exact (current mn mx : Nat) (h1 : mn ≤ current)
    (h2 : current ≤ mx) (h3 : mx ≤ durationMax) :
    BasicStrategy.next_interval current true mn mx = max mn (current / 2)
    ∧ BasicStrategy.next_interval current false mn mx = min mx (current * 2) := by
  constructor
  · rw [basic_true_def]
    unfold durClamp
    split_ifs <;> omega
  · rw [basic_false_def]
    unfold durClamp durationMax at *
    split_ifs <;> omega

/-- C8 witness: at `current = 100ms`, bounds 16ms..500ms (in ns), halving
gives 50ms and doubling gives 200ms. -/
theorem C8_basic_strategy_exact_witness :
    BasicStrategy.next_interval 100000000 true 16000000 500000000
        = max 16000000 (100000000 / 2)
    ∧ BasicStrategy.next_interval 100000000 false 16000000 500000000
        = min 500000000 (100000000 * 2) :=
  C8_basic_strategy_exact 100000000 16000000 500000000 (by decide) (by decide) (by decide)

/-- C9: `snapshot()` never mutates the shared `InputState`: the shared state
after any sequence of `snapshot()` calls (each returning the shared state as
its second component, per the read-clone-release in the source) has exactly
the cursor and focus fields it had before. -/
theorem C9_snapshot_preserves_shared_state (t : MonitorTracker) (times : List Nat) :
    ((times.foldl (fun tr now => { tr with state := (tr.snapshot now).2 }) t).state.cursor
        = t.state.cursor)
    ∧ ((times.foldl (fun tr now => { tr with state := (tr.snapshot now).2 }) t).state.focus
        = t.state.focus) := by
  have key : ∀ (ns : List Nat) (tr : MonitorTracker),
      ns.foldl (fun tr now => { tr with state := (tr.snapshot now).2 }) tr = tr := by
    intro ns
    induction ns with
    | nil => intro tr; rfl
    | cons n ns2 ih =>
      intro tr
      rw [List.foldl_cons]
      have h1 : ({ tr with state := (tr.snapshot n).2 } : MonitorTracker) = tr := by
        rw [snapshot_state_eq]
      rw [h1, ih tr]
  rw [key times t]
  exact ⟨rfl, rfl⟩

/-- C10: after every call to `MomentumStrategy::next_interval` the streak is
at least 1 if `changed` was true and at most -1 if it was false; in
particular it is never 0, and its sign records the direction of the most
recent tick. -/
theorem C10_momentum_streak_sign_invariant (streak : Int) (current : Nat)
    (changed : Bool) (mn mx : Nat) :
    (changed = true → 1 ≤ (MomentumStrategy.next_interval streak current changed mn mx).2)
    ∧ (changed = false →
        (MomentumStrategy.next_interval streak current changed mn mx).2 ≤ -1)
    ∧ (MomentumStrategy.next_interval streak current changed mn mx).2 ≠ 0 := by
  rw [momentum_streak_eq]
  refine ⟨?_, ?_, ?_⟩
  · intro h; subst h; exact momentumStep_pos streak
  · intro h; subst h; exact momentumStep_neg streak
  · cases changed
    · have := momentumStep_neg streak; omega
    · have := momentumStep_pos streak; omega

/-- C10 witness: a fresh strategy's first `changed = true` call leaves the
streak at 1. -/
theorem C10_momentum_streak_sign_invariant_witness :
    1 ≤ (MomentumStrategy.next_interval 0 1 true 1 1).2 :=
  (C10_momentum_streak_sign_invariant 0 1 true 1 1).1 rfl

end AltTab
